import Mathlib

/-!
Shallow embedding of the AotJS runtime core (value representation, property
map, garbage collector, shadow stack) for checking the natural-language
specification against the code.

Machine integers are modelled as `Nat` with explicit reduction `% 2^64`
where 64-bit overflow matters.  Pointers are modelled as their numeric
addresses (`Nat`, assumed to fit in the low 48 bits as the source assumes).
Fallible paths (`std::abort()`) are modelled with `Option`, `none` meaning
the process aborts.
-/

namespace AotJS

/-- 2^64, the wrap-around modulus of the 64-bit raw value word. -/
def word : Nat := 2 ^ 64

/-!
## Shifted-NaN-box encoding (`VAL_SHIFTED_NAN_BOX`, aotjs_runtime.h)

The active encoding of the newer header: `mRaw` is a 64-bit word; doubles
are shifted by `tagShift` so pointers have tag 0, int32s have tag 0xffff,
and every other tag is a double.  `tag()` in the source is an arithmetic
right shift of the signed 64-bit raw by 48; comparing that signed tag with
`tagBitsPointer = 0` and `tagBitsInt32 = -1` is equivalent to comparing the
top 16 bits (`raw / 2^48`) with `0` and `0xffff`, which is how we model it.
-/

/-- `tagShift = 0x0010'0000'0000'0000` from the source. -/
def tagShift : Nat := 0x0010000000000000

/-- The top 16 bits of the 64-bit raw word (the tag field). -/
def tagBits (raw : Nat) : Nat := raw / 2 ^ 48

/-- `tagBitsPointer = 0`: tag of a GC pointer. -/
def tagBitsPointer : Nat := 0

/-- `tagBitsInt32 = -1`: as a 16-bit field, 0xffff. -/
def tagBitsInt32 : Nat := 0xffff

/-- `Val::isGCThing()`: `tag() == tagBitsPointer`. -/
def isGCThingRaw (raw : Nat) : Bool := tagBits raw == tagBitsPointer

/-- `Val::isInt32()`: `tag() == tagBitsInt32`. -/
def isInt32Raw (raw : Nat) : Bool := tagBits raw == tagBitsInt32

/-- `Val::isDouble()`: tag is neither the pointer tag nor the int32 tag. -/
def isDoubleRaw (raw : Nat) : Bool :=
  !(tagBits raw == tagBitsPointer) && !(tagBits raw == tagBitsInt32)

/-- `Val::tagPointer(GCThing*)`: the address itself (zero-extended). -/
def tagPointer (addr : Nat) : Nat := addr

/-- `Val::tagOrBoxInt32(int32_t)`: zero-extend the 32-bit pattern and put
the 0xffff tag on top.  `n` is the 32-bit two's-complement bit pattern. -/
def tagOrBoxInt32 (n : Nat) : Nat :=
  (n % 2 ^ 32) + tagBitsInt32 * 2 ^ 48

/-- Result of `Val::tagOrBoxDouble`: either an immediate shifted word, or a
fresh heap allocation of a `Box<double>` holding the given bit pattern. -/
inductive TagOrBox where
  | imm (raw : Nat)
  | boxDouble (bits : Nat)
deriving DecidableEq, Repr

/-- IEEE-754 bit pattern of `-INFINITY`. -/
def negInfBits : Nat := 0xfff0000000000000

/-- IEEE-754 bit pattern of `+INFINITY`. -/
def posInfBits : Nat := 0x7ff0000000000000

/-- IEEE-754 bit pattern of the canonical quiet NaN (`NAN`). -/
def nanBits : Nat := 0x7ff8000000000000

/-- `Val::tagOrBoxDouble(double)`: `-INFINITY` (the only double equal to
`-INFINITY`; `x == -INFINITY` is false for NaN and every other pattern) is
demoted to a heap `Box<double>`; every other double is shifted by
`tagShift`, wrapping at 64 bits. -/
def tagOrBoxDouble (bits : Nat) : TagOrBox :=
  if bits == negInfBits then
    .boxDouble bits
  else
    .imm ((bits + tagShift) % word)

/-- `Val::asDouble()` (shifted-NaN-box branch): `mRaw - tagShift`
reinterpreted as a double; 64-bit wrap-around subtraction. -/
def asDouble (raw : Nat) : Nat := (raw + (word - tagShift)) % word

/-- `Box<double>::toDouble()`: `static_cast<double>(val())`, the stored
double itself. -/
def boxDoubleToDouble (bits : Nat) : Nat := bits

/-- Round-trip of a double bit pattern through `Val`: construct with
`tagOrBoxDouble`, read back with `asDouble` (immediate case) or
`Box<double>::toDouble` (boxed case). -/
def doubleRoundTrip (bits : Nat) : Nat :=
  match tagOrBoxDouble bits with
  | .imm raw => asDouble raw
  | .boxDouble b => boxDoubleToDouble b

/-!
## The heap and the sigil singletons

The engine owns five pre-allocated sigil boxes (`mUndefined`, `mNull`,
`mDeleted`, `mFalse`, `mTrue`).  `Val(bool)`, `Val(Null)`, `Val(Undefined)`,
`Val(Deleted)` construct pointers to them, so their raw words are the sigil
addresses.  A heap is a finite address-to-object map; addresses are assumed
nonzero and under 2^48 (the source's pointer assumption), so a pointer raw
word has tag 0.
-/

/-- A heap object of the newer runtime (aotjs_runtime.h classes).
`TypeOf` dispatch data is carried by the constructor. -/
inductive HeapObj where
  | boxUndefined
  | boxNull
  | boxDeleted
  | boxBool (b : Bool)
  | boxDouble (bits : Nat)
  | boxInt32 (bits : Nat)
  | strObj (data : String)
  | symObj (name : String)
  | objObj (proto : Option Nat) (props : List (Nat × Nat))
  | funcObj (proto : Option Nat) (props : List (Nat × Nat))
      (name : String) (arity : Nat)
  | cellObj (v : Nat)
deriving DecidableEq, Repr

/-- The `TypeOf` tag returned by the virtual `typeOf()` of each class
(`String::typeOf` returns `typeOfString`, `Symbol::typeOf` returns
`typeOfSymbol`, `Object::typeOf` returns `typeOfObject`, `Function::typeOf`
returns `typeOfFunction`, `Cell` is an `Internal`; each `Box<T>`
specialisation has its own distinct tag). -/
inductive TypeTag where
  | tUndefined | tNull | tDeleted | tBoolean | tBoxDouble | tBoxInt32
  | tString | tSymbol | tObject | tFunction | tInternal
deriving DecidableEq, Repr

/-- Virtual `typeOf()` dispatch on the pointed-to object. -/
def typeOfObj : HeapObj → TypeTag
  | .boxUndefined => .tUndefined
  | .boxNull => .tNull
  | .boxDeleted => .tDeleted
  | .boxBool _ => .tBoolean
  | .boxDouble _ => .tBoxDouble
  | .boxInt32 _ => .tBoxInt32
  | .strObj _ => .tString
  | .symObj _ => .tSymbol
  | .objObj _ _ => .tObject
  | .funcObj _ _ _ _ => .tFunction
  | .cellObj _ => .tInternal

/-- The heap: association list from addresses to objects. -/
abbrev Heap : Type := List (Nat × HeapObj)

/-- Address lookup. -/
def heapGet (h : Heap) (addr : Nat) : Option HeapObj :=
  List.lookup addr h

/-- The engine's sigil singleton addresses (`undefinedRef()` etc.). -/
structure Sigils where
  undefA : Nat
  nullA : Nat
  deletedA : Nat
  trueA : Nat
  falseA : Nat
deriving DecidableEq, Repr

/-- `Val::isBool()`: `asPointer() == engine().trueRef() ||
asPointer() == engine().falseRef()`; `asPointer` reinterprets the whole
raw word, so this is raw-word equality with a sigil address. -/
def isBoolRaw (sg : Sigils) (raw : Nat) : Bool :=
  raw == sg.trueA || raw == sg.falseA

/-- `Val::isUndefined()`: `asPointer() == engine().undefinedRef()`. -/
def isUndefinedRaw (sg : Sigils) (raw : Nat) : Bool := raw == sg.undefA

/-- `Val::isNull()`: `asPointer() == engine().nullRef()`. -/
def isNullRaw (sg : Sigils) (raw : Nat) : Bool := raw == sg.nullA

/-- `Val::isTypeOf(t)`: `isGCThing() && asPointer()->typeOf() == t`.
A dangling pointer (no object at that address) is undefined behaviour in
the source; we model the dispatch as failing the comparison. -/
def isTypeOfRaw (h : Heap) (raw : Nat) (t : TypeTag) : Bool :=
  isGCThingRaw raw &&
    match heapGet h raw with
    | some o => typeOfObj o == t
    | none => false

/-- `Val::isString()`. -/
def isStringRaw (h : Heap) (raw : Nat) : Bool := isTypeOfRaw h raw .tString

/-- `Val::isSymbol()`. -/
def isSymbolRaw (h : Heap) (raw : Nat) : Bool := isTypeOfRaw h raw .tSymbol

/-- `Val::isObject()`. -/
def isObjectRaw (h : Heap) (raw : Nat) : Bool := isTypeOfRaw h raw .tObject

/-- `Val::isFunction()`. -/
def isFunctionRaw (h : Heap) (raw : Nat) : Bool :=
  isTypeOfRaw h raw .tFunction

/-- The byte content of the `String` object a string-valued `Val` points
to (`String::data`); junk (the empty string) off the string case, which is
only consulted under an `isString` guard, as in the source. -/
def strData (h : Heap) (raw : Nat) : String :=
  match heapGet h raw with
  | some (.strObj s) => s
  | _ => ""

/-- `Val::operator==` (part_000 lines 24-38): bit-identical raw words
always match; otherwise two strings compare by content
(`String::operator==` compares `data`); otherwise not equal. -/
def valEq (h : Heap) (a b : Nat) : Bool :=
  if a == b then
    true
  else if isStringRaw h a && isStringRaw h b then
    strData h a == strData h b
  else
    false

/-- `std::hash<uint64_t>`, which mainstream standard libraries implement
as the identity on the 64-bit word. -/
def stdHashUInt64 (x : Nat) : Nat := x

/-- `std::hash<AotJS::Val>::operator()` (part_000 lines 17-21):
`hash<uint64_t>{}(ref.raw())`. -/
def valHash (raw : Nat) : Nat := stdHashUInt64 raw

/-!
## NaN-signalling encoding (the older aotjs_runtime.h `Val`)

Raw is a 64-bit word.  The top 16 bits carry the tag; doubles are all words
`w` with `w | sign_bit <= tag_max_double`.  Constants from the source.
-/

namespace V1

/-- `sign_bit`. -/
def sign_bit : Nat := 0x8000000000000000

/-- `tag_mask`. -/
def tag_mask : Nat := 0xffff000000000000

/-- `tag_max_double`. -/
def tag_max_double : Nat := 0xfff8000000000000

/-- `tag_int32`. -/
def tag_int32 : Nat := 0xfff9000000000000

/-- `tag_bool`. -/
def tag_bool : Nat := 0xfffa000000000000

/-- `tag_null`. -/
def tag_null : Nat := 0xfffb000000000000

/-- `tag_undefined`. -/
def tag_undefined : Nat := 0xfffc000000000000

/-- `tag_min_gc`. -/
def tag_min_gc : Nat := 0xfffd000000000000

/-- `tag_string`. -/
def tag_string : Nat := 0xfffd000000000000

/-- `tag_symbol`. -/
def tag_symbol : Nat := 0xfffe000000000000

/-- `tag_object`. -/
def tag_object : Nat := 0xffff000000000000

/-- `Val(bool val)`: `((uint64_t)val & ~tag_mask) | tag_bool`. -/
def fromBool (b : Bool) : Nat :=
  ((if b then 1 else 0) % 2 ^ 48) + tag_bool

/-- `Val(GCThing *val)`:
`(reinterpret_cast<uint64_t>(val) & ~tag_mask) | tag_bool` — note the
source tags heap pointers with `tag_bool`.  `addr` is the pointer's
numeric address. -/
def fromGCThing (addr : Nat) : Nat := (addr % 2 ^ 48) + tag_bool

/-- `Val::tag()`: `val_raw & tag_mask`. -/
def tag (raw : Nat) : Nat := raw - raw % 2 ^ 48

/-- `Val::isDouble()`: `(val_raw | sign_bit) <= tag_max_double`. -/
def isDouble (raw : Nat) : Bool := (raw ||| sign_bit) ≤ tag_max_double

/-- `Val::isInt32()`. -/
def isInt32 (raw : Nat) : Bool := tag raw == tag_int32

/-- `Val::isBool()`. -/
def isBool (raw : Nat) : Bool := tag raw == tag_bool

/-- `Val::isUndefined()`. -/
def isUndefined (raw : Nat) : Bool := tag raw == tag_undefined

/-- `Val::isNull()`. -/
def isNull (raw : Nat) : Bool := tag raw == tag_null

/-- `Val::isGCThing()`: `val_raw >= tag_min_gc` ("All pointer types will
have at least this value!"). -/
def isGCThing (raw : Nat) : Bool := tag_min_gc ≤ raw

/-- `Val::isString()`. -/
def isString (raw : Nat) : Bool := tag raw == tag_string

/-- `Val::isSymbol()`. -/
def isSymbol (raw : Nat) : Bool := tag raw == tag_symbol

/-- `Val::isObject()`. -/
def isObject (raw : Nat) : Bool := tag raw == tag_object

end V1

/-!
## Property access (part_000 `normalizePropName`, `Object::getProp`,
`Object::setProp`)

`mProps` is a `std::unordered_map<Val,Val>` hashed by `std::hash<Val>`
(the raw word) and compared by `Val::operator==`.  A probe lands in the
bucket chosen by its hash and is then compared with `operator==`, so an
entry is found when the probe both hashes like the stored key and compares
equal to it.  `std::abort()` is modelled as `none`.
-/

/-- `unordered_map::find`: locate the stored entry whose key is in the
probe's hash bucket and compares `operator==`-equal to the probe. -/
def mapFind (h : Heap) (props : List (Nat × Nat)) (key : Nat) :
    Option (Nat × Nat) :=
  props.find? (fun kv => valHash kv.1 == valHash key && valEq h kv.1 key)

/-- `normalizePropName` (part_000 lines 106-117): a String or Symbol key
is used as-is; any other key aborts the process (`std::abort()`). -/
def normalizePropName (h : Heap) (aName : Nat) : Option Nat :=
  if isStringRaw h aName then
    some aName
  else if isSymbolRaw h aName then
    some aName
  else
    none

/-- The prototype-chain loop of `Object::getProp` after the key has been
normalized: if the map has the entry the source returns `index->first`
(the stored key); otherwise it recurses into the prototype, or returns
`Undefined()` (the undefined sigil) at the end of the chain.  `fuel`
bounds the chain walk (the source recurses unboundedly; every theorem
below supplies enough fuel). -/
def getPropLoop (sg : Sigils) (h : Heap) : Nat → Nat → Nat → Option Nat
  | 0, _, _ => none
  | fuel + 1, objAddr, name =>
    match heapGet h objAddr with
    | some (.objObj proto props) =>
      (match mapFind h props name with
       | some kv => some kv.1
       | none =>
         match proto with
         | some p => getPropLoop sg h fuel p name
         | none => some sg.undefA)
    | some (.funcObj proto props _ _) =>
      (match mapFind h props name with
       | some kv => some kv.1
       | none =>
         match proto with
         | some p => getPropLoop sg h fuel p name
         | none => some sg.undefA)
    | _ => none

/-- `Object::getProp` (part_000 lines 121-133): normalize the key, then
walk the prototype chain. -/
def getProp (sg : Sigils) (h : Heap) (fuel objAddr key : Nat) :
    Option Nat :=
  match normalizePropName h key with
  | none => none
  | some name => getPropLoop sg h fuel objAddr name

/-- `Object::setProp` (part_000 lines 135-138): normalize the key, then
`mProps.emplace(name, aVal)` — which inserts only when no equivalent key
is present and otherwise leaves the map unchanged.  Returns the updated
heap, or `none` when normalization aborts. -/
def setProp (h : Heap) (objAddr key val : Nat) : Option Heap :=
  match normalizePropName h key with
  | none => none
  | some name =>
    match heapGet h objAddr with
    | some (.objObj proto props) =>
      if (mapFind h props name).isSome then
        some h
      else
        some (h.map (fun p =>
          if p.1 == objAddr then (p.1, .objObj proto (props ++ [(name, val)]))
          else p))
    | some (.funcObj proto props nm ar) =>
      if (mapFind h props name).isSome then
        some h
      else
        some (h.map (fun p =>
          if p.1 == objAddr then
            (p.1, .funcObj proto (props ++ [(name, val)]) nm ar)
          else p))
    | _ => none

/-!
## Shadow stack, Scope, ScopeRetVal, ArgList

The shadow stack is modelled as a list of raw value words; a slot's
address is its index, `stackTop` is the length.  The bodies of
`Engine::pushLocal`, `Engine::popLocal` and `Engine::stackTop` are not in
`src/` (declared at aotjs_runtime.h lines 477-479), so they are modelled
from the spec.
-/

/-- Modelled from the spec: `Engine::pushLocal(v)` (body absent from
`src/`) appends `v` as a new slot and returns its stable address; the
spec's §4.4 "append `v`, return the address of the slot". -/
def pushLocal (s : List Nat) (v : Nat) : List Nat := s ++ [v]

/-- Modelled from the spec: `Engine::stackTop()` (body absent from
`src/`), the current top address, here the number of live slots. -/
def stackTop (s : List Nat) : Nat := s.length

/-- Modelled from the spec: `Engine::popLocal(record)` (body absent from
`src/`) resets the top to the recorded address; the spec's §4.4
`popTo(base)`. -/
def popLocal (s : List Nat) (record : Nat) : List Nat := s.take record

/-- `ScopeRetVal` construction (aotjs_runtime.h lines 1204-1223): member
order makes `mRetVal` (a default `Local`, which pushes one `Undefined`
slot via `Engine::pushLocal`) run before `mScope` (which records
`stackTop()`), so one slot is reserved on the parent region before the
inner Scope opens.  Returns the stack after entry. -/
def scopeRetValEnter (sg : Sigils) (s : List Nat) : List Nat :=
  pushLocal s sg.undefA

/-- The index of the reserved return slot: the top at entry. -/
def scopeRetValSlot (s : List Nat) : Nat := stackTop s

/-- `ScopeRetVal::escape(aVal)`: `*mRetVal = *aVal`, overwriting the
reserved slot with the escaping value. -/
def scopeRetValEscape (cur : List Nat) (slot v : Nat) : List Nat :=
  cur.set slot v

/-- `Scope` construction (aotjs_runtime.h lines 1183-1187): record
`engine().stackTop()` as `mFirstRecord`. -/
def scopeMark (s : List Nat) : Nat := stackTop s

/-- `~Scope` (aotjs_runtime.h lines 1189-1192): `popLocal` back to the
recorded mark.  In `~ScopeRetVal` members are destroyed in reverse
order, so this runs with the mark taken after the reserved slot was
pushed; `Local` has no destructor, so `mRetVal` pops nothing more. -/
def scopeExit (mark : Nat) (cur : List Nat) : List Nat :=
  popLocal cur mark

/-- `ArgList::size()` (aotjs_runtime.h lines 1268-1270): the original
argument-list length `mSize`, not the padded arity. -/
def argListSize (args : List Nat) : Nat := args.length

/-- Modelled from the spec: the `ArgList` constructor body
(`ArgList(Function&, RawArgList)`, declared aotjs_runtime.h line 1256) is
absent from `src/`; per the spec the caller's arguments are pushed as a
contiguous run and padded to the callee's declared arity with
`undefined`.  Returns the slot run `mBegin[0..]`. -/
def argListSlots (sg : Sigils) (arity : Nat) (args : List Nat) :
    List Nat :=
  args ++ List.replicate (arity - args.length) sg.undefA

/-!
## The middle-generation engine of part_000: mark bits and `Engine::gc`

part_000 implements `Engine::gc` (lines 407-438) and the per-class
`markRefsForGC` hooks over objects Object/String/Symbol/Scope/Frame/
Function.  `GCThing::markForGC`/`clearForGC` (aotjs_runtime.h lines
576-589): marking sets the bit and traces outgoing refs once; clearing
resets the bit.  Mark bits are modelled as the list of marked addresses.
-/

/-- Modelled from the spec: the `Val` class part_000 compiles against is
absent from `src/`; for GC purposes a value is either a reference to a
heap thing (`isJSThing`, with its address) or a non-pointer primitive. -/
inductive MidVal where
  | ref (addr : Nat)
  | prim (raw : Nat)
deriving DecidableEq, Repr

/-- `Val::isJSThing()` of the middle runtime: the value references a heap
thing. -/
def midIsJSThing : MidVal → Bool
  | .ref _ => true
  | .prim _ => false

/-- A heap object of the part_000 runtime generation, carrying exactly
the state its `markRefsForGC` walks. -/
inductive MidObj where
  | obj (proto : Option Nat) (props : List (MidVal × MidVal))
  | str (data : String)
  | sym (name : String)
  | scope (parent : Option Nat) (locals : List MidVal)
  | frame (parent : Option Nat) (func : Nat) (thisV : MidVal)
      (args : List MidVal)
  | func (scope : Option Nat)
deriving DecidableEq, Repr

/-- The part_000 heap. -/
abbrev MidHeap : Type := List (Nat × MidObj)

/-- Lookup in the part_000 heap. -/
def midHeapGet (h : MidHeap) (addr : Nat) : Option MidObj :=
  List.lookup addr h

mutual

/-- `GCThing::markForGC` (aotjs_runtime.h lines 576-584): if not yet
marked, set the mark bit and trace outgoing refs via `markRefsForGC`.
`fuel` bounds the recursion depth (the source recursion is bounded by the
finitely many unmarked objects; theorems supply ample fuel). -/
def midMarkForGC (h : MidHeap) : Nat → List Nat → Nat → List Nat
  | 0, marks, _ => marks
  | fuel + 1, marks, addr =>
    if marks.contains addr then marks
    else midMarkRefsForGC h fuel (addr :: marks) addr

/-- The per-class `markRefsForGC` hooks of part_000 (lines 140-154,
221-231, 245-261, 279-283): `Object` marks each property name
(`markForGC`) and each `isJSThing` property value (`markForGC`);
`String`/`Symbol` inherit the no-op default; `Scope` calls
`markRefsForGC` (not `markForGC`) on its parent and on each `isJSThing`
local; `Frame` calls `markRefsForGC` on its parent, its callee function,
`this` and each argument; `Function` calls `markRefsForGC` on its scope.
The source's choice of `markRefsForGC` over `markForGC` in the latter
three is embedded as written. -/
def midMarkRefsForGC (h : MidHeap) : Nat → List Nat → Nat → List Nat
  | 0, marks, _ => marks
  | fuel + 1, marks, addr =>
    match midHeapGet h addr with
    | some (.obj _ props) =>
      props.foldl
        (fun acc kv =>
          let acc1 :=
            match kv.1 with
            | .ref a => midMarkForGC h fuel acc a
            | .prim _ => acc
          match kv.2 with
          | .ref a => midMarkForGC h fuel acc1 a
          | .prim _ => acc1)
        marks
    | some (.str _) => marks
    | some (.sym _) => marks
    | some (.scope parent locals) =>
      let acc0 :=
        match parent with
        | some p => midMarkRefsForGC h fuel marks p
        | none => marks
      locals.foldl
        (fun acc l =>
          match l with
          | .ref a => midMarkRefsForGC h fuel acc a
          | .prim _ => acc)
        acc0
    | some (.frame parent fn thisV args) =>
      let acc0 :=
        match parent with
        | some p => midMarkRefsForGC h fuel marks p
        | none => marks
      let acc1 := midMarkRefsForGC h fuel acc0 fn
      let acc2 :=
        match thisV with
        | .ref a => midMarkRefsForGC h fuel acc1 a
        | .prim _ => acc1
      args.foldl
        (fun acc l =>
          match l with
          | .ref a => midMarkRefsForGC h fuel acc a
          | .prim _ => acc)
        acc2
    | some (.func scope) =>
      (match scope with
       | some s => midMarkRefsForGC h fuel marks s
       | none => marks)
    | none => marks

end

/-- The part_000 engine state relevant to `Engine::gc`: the global root
object, current scope and frame, the live-object set `mObjects`, the
heap, and the current mark bits. -/
structure MidEngine where
  root : Nat
  scope : Option Nat
  frame : Option Nat
  objects : List Nat
  heap : MidHeap
  marked : List Nat

/-- `Engine::gc` (part_000 lines 407-438).  Mark phase: `markForGC` on
the root, then on the current scope and frame when present.  Sweep phase:
collect every object whose mark bit is clear into `deadObjects`; then for
each dead object, if its mark bit is set keep it and clear the bit
(`clearForGC`), else erase it from `mObjects` and delete it.  Nothing in
between the two loops changes mark bits, which the embedding preserves
verbatim. -/
def midGC (fuel : Nat) (e : MidEngine) : MidEngine :=
  let m1 := midMarkForGC e.heap fuel e.marked e.root
  let m2 :=
    match e.scope with
    | some s => midMarkForGC e.heap fuel m1 s
    | none => m1
  let m3 :=
    match e.frame with
    | some f => midMarkForGC e.heap fuel m2 f
    | none => m2
  let deadObjects := e.objects.filter (fun o => !(m3.contains o))
  let final :=
    deadObjects.foldl
      (fun (st : List Nat × List Nat × MidHeap) o =>
        if st.1.contains o then
          -- Keep the object, clear the marker (clearForGC).
          (st.1.erase o, st.2.1, st.2.2)
        else
          -- Erase from mObjects and delete.
          (st.1, st.2.1.erase o, st.2.2.filter (fun p => !(p.1 == o))))
      (m3, e.objects, e.heap)
  { e with marked := final.1, objects := final.2.1, heap := final.2.2 }

/-!
## Concrete fixtures

A concrete sigil assignment and small heaps used by the concrete
theorems.  Addresses are arbitrary sub-2^48 values, as produced by the
allocator the source assumes.
-/

/-- A concrete engine sigil table. -/
def sgC : Sigils := ⟨0x100, 0x108, 0x110, 0x118, 0x120⟩

/-- The five sigil boxes at their addresses. -/
def sigilHeap : Heap :=
  [(0x100, .boxUndefined), (0x108, .boxNull), (0x110, .boxDeleted),
   (0x118, .boxBool true), (0x120, .boxBool false)]

/-- Heap for the property theorems: the sigils, a `String "x"` at 0x200,
and an empty `Object` (no prototype) at 0x300. -/
def h1 : Heap :=
  sigilHeap ++ [(0x200, .strObj "x"), (0x300, .objObj none [])]

/-- `h1` after `setProp(0x300, "x"@0x200, int32 42)`. -/
def h1' : Heap :=
  sigilHeap ++
    [(0x200, .strObj "x"),
     (0x300, .objObj none [(0x200, tagOrBoxInt32 42)])]

/-- Heap for the hashing theorem: the sigils plus two distinct `String`
objects with identical content. -/
def h10 : Heap :=
  sigilHeap ++ [(0xa00, .strObj "dup"), (0xb00, .strObj "dup")]

/-- The raw word of a `Val` built from the canonical NaN:
`nanBits + tagShift`. -/
def nanValRaw : Nat := 0x8008000000000000

/-- The part_000 engine at the point its sample programs call `gc()` with
only the global root object live: `mRoot` is an empty `Object` at 0x300,
no current scope or frame, mark bits all clear. -/
def e2 : MidEngine :=
  ⟨0x300, none, none, [0x300], [(0x300, .obj none [])], []⟩

/-!
## Theorems for claims C1-C10
-/

/-- Claim C5: a `Val` built from double NaN or +Infinity keeps the exact
bit pattern through `tagOrBoxDouble`/`asDouble`, and -Infinity round-trips
through a heap `Box<double>` because its shifted word would carry the
pointer tag (tag 0). -/
theorem claim5_double_roundtrip :
    doubleRoundTrip nanBits = nanBits ∧
    doubleRoundTrip posInfBits = posInfBits ∧
    doubleRoundTrip negInfBits = negInfBits ∧
    tagOrBoxDouble negInfBits = .boxDouble negInfBits ∧
    tagBits ((negInfBits + tagShift) % word) = tagBitsPointer := by
  refine ⟨by decide, by decide, by decide, by decide, by decide⟩

/-- Claim C4, counterexample: the claim asserts a `Val` built from double
NaN is not `operator==`-equal to a `Val` built from double NaN; in the
code `tagOrBoxDouble` maps the canonical NaN to the immediate word
`nanValRaw` (no boxing, NaN is not `== -INFINITY`), and `operator==` is
raw-bit equality, so the two values compare equal. -/
theorem claim4_counterexample :
    tagOrBoxDouble nanBits = .imm nanValRaw ∧
    valEq sigilHeap nanValRaw nanValRaw = true := by
  refine ⟨by decide, by decide⟩

/-- Claim C4, amended: `undefined == undefined` and `null == null` hold
(the sigil pointers are bit-identical); a `Val` built from double NaN
compares equal, not unequal, to a `Val` built from the same NaN, because
`Val::operator==` starts with raw-bit equality. -/
theorem claim4_amended_theorem :
    ∀ (sg : Sigils) (h : Heap),
      valEq h sg.undefA sg.undefA = true ∧
      valEq h sg.nullA sg.nullA = true ∧
      tagOrBoxDouble nanBits = .imm nanValRaw ∧
      valEq h nanValRaw nanValRaw = true := by
  intro sg h
  refine ⟨by simp [valEq], by simp [valEq], by decide, by simp [valEq]⟩

/-- Claim C10: `std::hash<Val>` hashes the raw word while `operator==`
falls back to string content: the two distinct `String` objects at
0xa00/0xb00 with content "dup" compare equal but hash differently, and
an `unordered_map` entry keyed by the one is not found when probed with
the other. -/
theorem claim10_hash_eq_inconsistent :
    valEq h10 0xa00 0xb00 = true ∧
    valHash 0xa00 ≠ valHash 0xb00 ∧
    mapFind h10 [(0xa00, tagOrBoxInt32 7)] 0xb00 = none := by
  refine ⟨by decide, by decide, by decide⟩

/-- Claim C3, code evaluation at the failing input: the NaN-signalling
`Val(GCThing*)` constructor tags the pointer with `tag_bool`, so a `Val`
built from a heap object at address 0x1000 answers `isBool() = true` and
`isGCThing() = false`, contradicting the header's own labelling of the
pointer tag range ("All pointer types will have at least this value"). -/
theorem claim3_v1_pointer_val_eval :
    V1.isBool (V1.fromGCThing 0x1000) = true ∧
    V1.isGCThing (V1.fromGCThing 0x1000) = false ∧
    V1.isString (V1.fromGCThing 0x1000) = false ∧
    V1.isObject (V1.fromGCThing 0x1000) = false := by
  refine ⟨by decide, by decide, by decide, by decide⟩

/-- Claim C2, code evaluation at the failing input: on the engine whose
only live object is the (empty) global root, `Engine::gc` marks the root
and then sweeps, but the sweep's `clearForGC` branch sits inside the
loop over `deadObjects` - which by construction holds only unmarked
objects - so the surviving root keeps its mark bit set after `gc()`
returns. -/
theorem claim2_gc_eval :
    (midGC 5 e2).objects = [0x300] ∧
    (midGC 5 e2).marked.contains 0x300 = true := by
  refine ⟨by decide, by decide⟩

/-- Claim C1, code evaluation at the failing input: on an empty object,
`setProp` with key `String "x"` (at 0x200) and value `int32 42` stores
the pair, but `getProp` returns `index->first` - the stored key 0x200 -
rather than the stored value; and a second `setProp` with the same key
leaves the old value in place because `emplace` does not overwrite. -/
theorem claim1_setProp_getProp_eval :
    setProp h1 0x300 0x200 (tagOrBoxInt32 42) = some h1' ∧
    getProp sgC h1' 5 0x300 0x200 = some 0x200 ∧
    (0x200 : Nat) ≠ tagOrBoxInt32 42 ∧
    setProp h1' 0x300 0x200 (tagOrBoxInt32 99) = some h1' := by
  refine ⟨by decide, by decide, by decide, by decide⟩

/-- Claim C6: `Val::operator==` holds exactly when the raw words are
identical (here the values themselves, which are their raw words) or both
operands are strings with identical content; in particular non-identical
non-string heap values never compare equal. -/
theorem claim6_val_eq_iff :
    ∀ (h : Heap) (a b : Nat),
      valEq h a b = true ↔
        a = b ∨ (isStringRaw h a = true ∧ isStringRaw h b = true ∧
          strData h a = strData h b) := by
  intro h a b
  by_cases hab : a = b
  · subst hab
    simp [valEq]
  · cases hsa : isStringRaw h a <;> cases hsb : isStringRaw h b <;>
      simp [valEq, hab, hsa, hsb]

/-- Claim C9: property keys are used as-is when they are Strings or
Symbols, and any other key makes `normalizePropName` - and with it
`getProp` and `setProp` - abort the process (modelled as `none`); no
coercion to string is performed. -/
theorem claim9_key_normalization :
    ∀ (sg : Sigils) (h : Heap) (fuel o k v : Nat),
      (isStringRaw h k = true → normalizePropName h k = some k) ∧
      (isSymbolRaw h k = true → normalizePropName h k = some k) ∧
      (isStringRaw h k = false → isSymbolRaw h k = false →
        normalizePropName h k = none ∧ getProp sg h fuel o k = none ∧
        setProp h o k v = none) := by
  intro sg h fuel o k v
  refine ⟨?_, ?_, ?_⟩
  · intro hs
    simp [normalizePropName, hs]
  · intro hs
    by_cases hstr : isStringRaw h k = true
    · simp [normalizePropName, hstr]
    · simp [normalizePropName, hstr, hs]
  · intro hs1 hs2
    have hn : normalizePropName h k = none := by
      simp [normalizePropName, hs1, hs2]
    refine ⟨hn, ?_, ?_⟩
    · simp [getProp, hn]
    · simp [setProp, hn]

/-- Claim C9 witness: the String key at 0x200 normalizes to itself; the
boolean sigil 0x118 used as a key aborts normalization, `getProp` and
`setProp`. -/
theorem claim9_key_normalization_witness :
    normalizePropName h1 0x200 = some 0x200 ∧
    normalizePropName h1 0x118 = none ∧
    getProp sgC h1 5 0x300 0x118 = none ∧
    setProp h1 0x300 0x118 0 = none := by
  have tStr := claim9_key_normalization sgC h1 5 0x300 0x200 0
  have tBool := claim9_key_normalization sgC h1 5 0x300 0x118 0
  exact ⟨tStr.1 (by decide), (tBool.2.2 (by decide) (by decide)).1,
    (tBool.2.2 (by decide) (by decide)).2.1,
    (tBool.2.2 (by decide) (by decide)).2.2⟩

/-- Claim C7: invoking a function of declared arity `n` with `k < n`
arguments gives the callee slots `0..k-1` holding the caller's values,
slots `k..n-1` holding `undefined`, while `ArgList::size()` reports the
original count `k`. -/
theorem claim7_arglist_padding :
    ∀ (sg : Sigils) (n : Nat) (args : List Nat),
      args.length < n →
      (∀ i, i < args.length → (argListSlots sg n args)[i]? = args[i]?) ∧
      (∀ i, args.length ≤ i → i < n →
        (argListSlots sg n args)[i]? = some sg.undefA) ∧
      argListSize args = args.length := by
  intro sg n args hlt
  refine ⟨?_, ?_, rfl⟩
  · intro i hi
    unfold argListSlots
    exact List.getElem?_append_left hi
  · intro i hge hi
    unfold argListSlots
    rw [List.getElem?_append_right hge]
    exact List.getElem?_replicate_of_lt (by omega)

/-- Claim C7 witness: arity 3 called with the two arguments
`int32 1, int32 2`: slots 0 and 1 hold them, slot 2 holds `undefined`,
and the reported size is 2. -/
theorem claim7_arglist_padding_witness :
    (2 : Nat) < 3 ∧
    (argListSlots sgC 3 [tagOrBoxInt32 1, tagOrBoxInt32 2])[0]? =
      some (tagOrBoxInt32 1) ∧
    (argListSlots sgC 3 [tagOrBoxInt32 1, tagOrBoxInt32 2])[1]? =
      some (tagOrBoxInt32 2) ∧
    (argListSlots sgC 3 [tagOrBoxInt32 1, tagOrBoxInt32 2])[2]? =
      some sgC.undefA ∧
    argListSize [tagOrBoxInt32 1, tagOrBoxInt32 2] = 2 := by
  have t := claim7_arglist_padding sgC 3 [tagOrBoxInt32 1, tagOrBoxInt32 2]
    (by decide)
  refine ⟨by decide, ?_, ?_, t.2.1 2 (by decide) (by decide), t.2.2⟩
  · exact t.1 0 (by decide)
  · exact t.1 1 (by decide)

/-- Claim C8: a `ScopeRetVal` reserves one slot on the parent region
before opening its inner `Scope` (member order: `mRetVal` pushes, then
`mScope` records the top), so on exit the stack is popped back to
entry-top + 1 and the reserved slot still holds the escaped value. -/
theorem claim8_scope_retval :
    ∀ (sg : Sigils) (s cur : List Nat) (v : Nat),
      stackTop s + 1 ≤ stackTop cur →
      (scopeExit (scopeMark (scopeRetValEnter sg s))
          (scopeRetValEscape cur (scopeRetValSlot s) v)).length =
        stackTop s + 1 ∧
      (scopeExit (scopeMark (scopeRetValEnter sg s))
          (scopeRetValEscape cur (scopeRetValSlot s) v))[scopeRetValSlot s]? =
        some v := by
  intro sg s cur v hle
  simp only [stackTop] at hle
  have hmark : scopeMark (scopeRetValEnter sg s) = s.length + 1 := by
    simp [scopeMark, scopeRetValEnter, stackTop, pushLocal]
  constructor
  · rw [hmark]
    simp only [scopeExit, popLocal, scopeRetValEscape, stackTop,
      List.length_take, List.length_set]
    omega
  · rw [hmark]
    simp only [scopeExit, popLocal, scopeRetValEscape, scopeRetValSlot,
      stackTop]
    rw [List.getElem?_take_of_lt (by omega)]
    exact List.getElem?_set_self (by omega)

/-- Claim C8 witness: entering a `ScopeRetVal` on the empty stack, with
the stack `[undefined, 0x50]` live at exit and 0x77 escaped: the exit
stack has exactly one slot and it holds 0x77. -/
theorem claim8_scope_retval_witness :
    stackTop ([] : List Nat) + 1 ≤ stackTop [sgC.undefA, 0x50] ∧
    (scopeExit (scopeMark (scopeRetValEnter sgC []))
        (scopeRetValEscape [sgC.undefA, 0x50] (scopeRetValSlot []) 0x77)).length =
      1 ∧
    (scopeExit (scopeMark (scopeRetValEnter sgC []))
        (scopeRetValEscape [sgC.undefA, 0x50]
          (scopeRetValSlot []) 0x77))[scopeRetValSlot ([] : List Nat)]? =
      some 0x77 := by
  have t := claim8_scope_retval sgC [] [sgC.undefA, 0x50] 0x77 (by decide)
  exact ⟨by decide, t.1, t.2⟩

end AotJS
